import Mathlib

/-!
Verification development for the keepa-bestseller-tracking service.

The Python source is shallowly embedded as follows:

* JSON-ish dynamic values appearing in per-category rank data are modelled by
  the sum types `Scalar` (integers, strings, null) and `RankData` (a list of
  scalars, or a bare scalar).  Floats and booleans are outside the modelled
  value domain except in `estimate_cost`, where the binary64 arithmetic of the
  source is modelled exactly.
* Python dicts are association lists; dict iteration order is list order and
  dict-comprehension overwrite semantics are modelled explicitly.
* The async persistence layer (supabase HTTP client) is modelled by an oracle
  `Db` giving the outcome of every call, plus an explicit table of change rows
  threaded through the functions; every call is also recorded in an effect log
  (`Eff`).  The HTTP layer swallows exceptions and reports failure through
  `Bool` / `Option` return values, exactly as in the source; the only raising
  path inside the item processor is validation of stored badge data, modelled
  by `parseStoredBadges` over `RawBadge`.
* Wall-clock timestamps are not modelled; duration fields are fixed to zero.
-/

namespace BST

/-- Scalar JSON values that can occur inside a rank entry. -/
inductive Scalar where
  | sInt (n : Int)
  | sStr (s : String)
  | sNull
  deriving DecidableEq, Repr

/-- The value attached to one category key in the salesRanks mapping:
either a list of scalars or a bare (non-list) scalar. -/
inductive RankData where
  | rlist (l : List Scalar)
  | rscalar (s : Scalar)
  deriving DecidableEq, Repr

/-- One entry of the Keepa categoryTree: a dict carrying catId and name,
or anything else (skipped by the source). catId is an integer in Keepa
payloads and is stringified with str() when the lookup is built. -/
inductive TreeEntry where
  | centry (catId : Int) (name : String)
  | cother
  deriving DecidableEq, Repr

/-- Pydantic schema BestSellerBadge (src/models/schemas.py). -/
structure BestSellerBadge where
  category_id : String
  category_name : String
  rank : Int
  is_bestseller : Bool
  deriving DecidableEq, Repr

/-- KeepaProductData restricted to the fields the tracked claims touch
(src/models/schemas.py, populated by KeepaService._parse_product_data).
A None salesRanks and an empty dict behave identically in the source
(`if not product.sales_ranks`), so both are modelled by the empty list. -/
structure KeepaProductData where
  asin : String
  title : Option String
  sales_ranks : List (String × RankData)
  category_tree : List TreeEntry
  deriving DecidableEq, Repr

/-- Python dict insertion with overwrite (later entries win). -/
def dictInsert (d : List (String × String)) (k v : String) : List (String × String) :=
  if d.any (fun p => p.1 == k) then
    d.map (fun p => if p.1 = k then (k, v) else p)
  else d ++ [(k, v)]

/-- Python dict lookup with a default (dict.get). -/
def dictGet (d : List (String × String)) (k dflt : String) : String :=
  match d.find? (fun p => p.1 == k) with
  | some p => p.2
  | none => dflt

/-- The category_lookup dict built by extract_bestseller_badges from the
category tree: entries that are dicts with catId and name keys contribute
str(catId) -> name, later entries overwriting earlier ones. -/
def buildLookup (tree : List TreeEntry) : List (String × String) :=
  tree.foldl (fun d e =>
    match e with
    | .centry catId name => dictInsert d (toString catId) name
    | .cother => d) []

/-- rank_data[1] when rank_data is a list of length at least 2; none when the
entry is not a list or is too short (the malformed cases the source skips). -/
def secondElem : RankData → Option Scalar
  | .rlist (_ :: r :: _) => some r
  | _ => none

/-- The compound guard of the extraction loop: rank_data is a 2+-element list
and rank_data[1] == 1.  Python integer equality with 1 holds exactly for the
integer scalar 1 in the modelled value domain. -/
def rankHitsOne (rd : RankData) : Bool :=
  match secondElem rd with
  | some (.sInt 1) => true
  | _ => false

/-- The badge constructed for a rank-1 category: name resolved through the
category lookup, defaulting to "Category " followed by the id. -/
def mkBadge (lookup : List (String × String)) (cid : String) : BestSellerBadge :=
  { category_id := cid
    category_name := dictGet lookup cid ("Category " ++ cid)
    rank := 1
    is_bestseller := true }

/-- The iteration over product.sales_ranks.items() inside
extract_bestseller_badges, appending one badge per rank-1 entry. -/
def extractLoop (lookup : List (String × String)) : List (String × RankData) → List BestSellerBadge
  | [] => []
  | (cid, rd) :: rest =>
    if rankHitsOne rd then mkBadge lookup cid :: extractLoop lookup rest
    else extractLoop lookup rest

/-- KeepaService.extract_bestseller_badges (src/services/keepa_service.py). -/
def extract_bestseller_badges (product : KeepaProductData) : List BestSellerBadge :=
  if product.sales_ranks.isEmpty then []
  else extractLoop (buildLookup product.category_tree) product.sales_ranks

/-- The category-id set of a badge list (the set comprehensions of
compare_badges; membership is all that is used of them). -/
def badgeIds (l : List BestSellerBadge) : List String :=
  l.map (fun b => b.category_id)

/-- Result type of compare_badges. -/
structure BadgeComparison where
  gained : List BestSellerBadge
  lost : List BestSellerBadge
  unchanged : List BestSellerBadge
  deriving DecidableEq, Repr

/-- KeepaService.compare_badges (src/services/keepa_service.py): set algebra
on category ids, then filtering the badge lists by membership. -/
def compare_badges (previous_badges current_badges : List BestSellerBadge) : BadgeComparison :=
  let prev_categories := badgeIds previous_badges
  let curr_categories := badgeIds current_badges
  { gained := current_badges.filter
      (fun b => decide (b.category_id ∈ curr_categories ∧ b.category_id ∉ prev_categories))
    lost := previous_badges.filter
      (fun b => decide (b.category_id ∈ prev_categories ∧ b.category_id ∉ curr_categories))
    unchanged := current_badges.filter
      (fun b => decide (b.category_id ∈ prev_categories ∧ b.category_id ∈ curr_categories)) }

/-- A nonnegative IEEE binary64 value, represented by its exact rational
value num/den (den a power of two after rounding). -/
structure PyFloat where
  num : Nat
  den : Nat
  deriving DecidableEq, Repr

/-- Largest exponent e in [-80, 80] with 2^e <= n/d (n, d positive; the range
covers every quantity occurring in the cost computation). -/
def log2FloorFrac (n d : Nat) : Int :=
  match ((List.range 161).map (fun i => (80 : Int) - i)).find?
      (fun e => if 0 ≤ e then decide (d * 2 ^ e.toNat ≤ n) else decide (d ≤ n * 2 ^ (-e).toNat)) with
  | some e => e
  | none => 0

/-- Round the nonnegative rational n/d to the nearest binary64 value
(round-to-nearest, ties-to-even), returned as an exact fraction. -/
def roundFrac64 (n d : Nat) : PyFloat :=
  if n = 0 ∨ d = 0 then ⟨0, 1⟩
  else
    let e := log2FloorFrac n d
    let s : Int := 52 - e
    let num := if 0 ≤ s then n * 2 ^ s.toNat else n
    let den := if 0 ≤ s then d else d * 2 ^ (-s).toNat
    let f := num / den
    let r := num % den
    let m := if 2 * r < den then f
      else if den < 2 * r then f + 1
      else if f % 2 = 0 then f else f + 1
    if 0 ≤ s then ⟨m, 2 ^ s.toNat⟩ else ⟨m * 2 ^ (-s).toNat, 1⟩

/-- Python true division of two nonnegative floats (correctly rounded). -/
def pyDivFloat (a b : PyFloat) : PyFloat :=
  roundFrac64 (a.num * b.den) (a.den * b.num)

/-- Python multiplication of two nonnegative floats (correctly rounded). -/
def pyMulFloat (a b : PyFloat) : PyFloat :=
  roundFrac64 (a.num * b.num) (a.den * b.den)

/-- Conversion of a nonnegative Python int to float (correctly rounded). -/
def pyFloatOfNat (n : Nat) : PyFloat :=
  roundFrac64 n 1

/-- Python int() truncation of a nonnegative float. -/
def pyTruncFloat (a : PyFloat) : Nat :=
  a.num / a.den

/-- KeepaService.estimate_cost (src/services/keepa_service.py):
int((tokens_needed / 1000) * 100) with binary64 arithmetic, then a floor
of one cent.  tokens_needed = asin_count. -/
def estimate_cost (asin_count : Nat) : Nat :=
  let tokens_needed := asin_count
  let cost_cents :=
    pyTruncFloat (pyMulFloat (pyDivFloat (pyFloatOfNat tokens_needed) (pyFloatOfNat 1000)) (pyFloatOfNat 100))
  max cost_cents 1

/-- The cost formula as the specification states it, in exact integer
arithmetic: max(1, floor(t / 1000 * 100)) = max(1, (t * 100) / 1000). -/
def claimed_cost (tokens : Nat) : Nat :=
  max ((tokens * 100) / 1000) 1

/-- Outcome of one HTTP request made by the supabase client: a status code,
or an exception raised by the transport. -/
inductive HttpOutcome where
  | status (code : Nat)
  | exn (msg : String)
  deriving DecidableEq, Repr

/-- SupabaseHTTPClient.update_asin_current_state (src/config/supabase_http.py):
PATCH, then POST if the PATCH returned 404; success iff the final status is
200 or 201; every exception is caught and reported as False.  Its total Bool
type records that this call never raises. -/
def update_asin_current_state (patchResult postResult : HttpOutcome) : Bool :=
  match patchResult with
  | .exn _ => false
  | .status code =>
    if code = 404 then
      match postResult with
      | .exn _ => false
      | .status c2 => c2 == 200 || c2 == 201
    else code == 200 || code == 201

/-- One element of the bestseller_badges JSON list stored in a CurrentState
row: either data that validates as a BestSellerBadge, or malformed data on
which the pydantic constructor raises. -/
inductive RawBadge where
  | valid (b : BestSellerBadge)
  | invalid
  deriving DecidableEq, Repr

/-- The list comprehension [BestSellerBadge(**b) for b in stored] in
_process_single_asin: validates in order and raises at the first malformed
entry. -/
def parseStoredBadges : List RawBadge → Except String (List BestSellerBadge)
  | [] => .ok []
  | .valid b :: rest => (parseStoredBadges rest).map (fun l => b :: l)
  | .invalid :: _ => .error "ValidationError"

/-- The part of a stored CurrentState row that the item processor reads. -/
structure StoredState where
  bestseller_badges : List RawBadge
  deriving DecidableEq, Repr

/-- One row of the bestseller_changes table as far as the claims need it:
its id and its notification_sent flag (false on insert, the DB default). -/
structure ChangeRow where
  id : String
  notification_sent : Bool
  deriving DecidableEq, Repr

/-- The dict _create_change_record returns to _process_single_asin (id plus
the change fields; the detection timestamp is not modelled). -/
structure ChangeRec where
  id : String
  change_type : String
  category : String
  category_id : String
  previous_rank : Option Int
  new_rank : Option Scalar
  deriving DecidableEq, Repr

/-- One tracked_asins row as far as the item processor reads it. -/
structure TrackedAsin where
  asin : String
  product_title : Option String
  deriving DecidableEq, Repr

/-- Oracle fixing the outcome of every persistence / notification call.
Each component mirrors the soft-failure result type of the corresponding
supabase / slack client method: a Bool result or an Option id, never an
exception (those are caught inside the client, src/config/supabase_http.py
and src/services/slack_service.py). -/
structure Db where
  getState : String → Option StoredState
  changeId : String → String → String → Option String
  upsertOk : String → Bool
  historyOk : String → Bool
  lastCheckedOk : String → Bool
  slackOk : String → Bool
  markOk : String → Bool

/-- Log of externally visible calls made during a run. -/
inductive Eff where
  | getState (asin : String)
  | insertChange (asin change_type category_id : String) (result : Option String)
  | upsertState (asin : String) (ok : Bool)
  | insertHistory (asin : String) (ok : Bool)
  | updateLastChecked (asin : String) (ok : Bool)
  | notifyAttempt (asin id : String)
  | markNotified (id : String) (ok : Bool)
  | providerFetch (asins : List String)
  | logApiUsage
  | logErrorRecord (asin : String)
  deriving DecidableEq, Repr

/-- AsinTracker._create_change_record (src/services/asin_tracker.py):
insert the change row; on a truthy returned id, hand back the change dict
carrying that id; on a falsy id (insert failed, or empty id) return None.
A successful insert creates a row with notification_sent false. -/
def create_change_record (db : Db) (store : List ChangeRow)
    (asin change_type category category_id : String)
    (previous_rank : Option Int) (new_rank : Option Scalar) :
    Option ChangeRec × List ChangeRow × List Eff :=
  match db.changeId asin change_type category_id with
  | some i =>
    let store1 := store ++ [{ id := i, notification_sent := false }]
    let log1 := [Eff.insertChange asin change_type category_id (some i)]
    if i = "" then (none, store1, log1)
    else (some { id := i, change_type := change_type, category := category,
                 category_id := category_id, previous_rank := previous_rank,
                 new_rank := new_rank }, store1, log1)
  | none => (none, store, [Eff.insertChange asin change_type category_id none])

/-- The gained-badge loop of _process_single_asin: one change record per
gained badge (previous_rank None, new_rank the badge rank), keeping the
records whose insert yielded an id. -/
def processGained (db : Db) (asin : String) :
    List BestSellerBadge → List ChangeRow → List ChangeRec × List ChangeRow × List Eff
  | [], store => ([], store, [])
  | b :: rest, store =>
    let step := create_change_record db store asin "gained" b.category_name b.category_id
      none (some (.sInt b.rank))
    let tail := processGained db asin rest step.2.1
    (match step.1 with
     | some c => c :: tail.1
     | none => tail.1, tail.2.1, step.2.2 ++ tail.2.2)

/-- The current-rank lookup for a lost badge: product.sales_ranks[cid][1]
when that entry is a 2+-element list, else None. -/
def lookupRank (sales_ranks : List (String × RankData)) (cid : String) : Option Scalar :=
  match sales_ranks.find? (fun e => e.1 == cid) with
  | some e => secondElem e.2
  | none => none

/-- The lost-badge loop of _process_single_asin: one change record per lost
badge (previous_rank 1, new_rank the current rank in that category if still
ranked), keeping the records whose insert yielded an id. -/
def processLost (db : Db) (asin : String) (sales_ranks : List (String × RankData)) :
    List BestSellerBadge → List ChangeRow → List ChangeRec × List ChangeRow × List Eff
  | [], store => ([], store, [])
  | b :: rest, store =>
    let step := create_change_record db store asin "lost" b.category_name b.category_id
      (some 1) (lookupRank sales_ranks b.category_id)
    let tail := processLost db asin sales_ranks rest step.2.1
    (match step.1 with
     | some c => c :: tail.1
     | none => tail.1, tail.2.1, step.2.2 ++ tail.2.2)

/-- AsinTracker._process_single_asin (src/services/asin_tracker.py).
Returns the list of change dicts (the Except error case models the re-raised
exception, whose only source on this path is stored-badge validation), the
updated change-row table, and the calls made.  The CurrentState write, the
history insert and the last_checked_at update are fired on both branches and
their Bool results are ignored, exactly as in the source. -/
def process_single_asin (db : Db) (tracked_asin : TrackedAsin) (product : KeepaProductData)
    (store : List ChangeRow) :
    Except String (List ChangeRec) × List ChangeRow × List Eff :=
  let asin := tracked_asin.asin
  let current_badges := extract_bestseller_badges product
  match db.getState asin with
  | some cs =>
    match parseStoredBadges cs.bestseller_badges with
    | .error e => (.error e, store, [Eff.getState asin])
    | .ok previous_badges =>
      let cmp := compare_badges previous_badges current_badges
      let g := processGained db asin cmp.gained store
      let l := processLost db asin product.sales_ranks cmp.lost g.2.1
      (.ok (g.1 ++ l.1), l.2.1,
        [Eff.getState asin] ++ g.2.2 ++ l.2.2 ++
        [Eff.upsertState asin (db.upsertOk asin),
         Eff.insertHistory asin (db.historyOk asin),
         Eff.updateLastChecked asin (db.lastCheckedOk asin)])
  | none =>
    (.ok [], store,
      [Eff.getState asin,
       Eff.upsertState asin (db.upsertOk asin),
       Eff.insertHistory asin (db.historyOk asin),
       Eff.updateLastChecked asin (db.lastCheckedOk asin)])

/-- AsinTracker._send_change_notification (src/services/asin_tracker.py):
one slack delivery attempt; on success, patch the change row to
notification_sent true (row updated only if the patch succeeds); the return
value is the delivery result regardless of the patch result. -/
def send_change_notification (db : Db) (tracked_asin : TrackedAsin) (change : ChangeRec)
    (store : List ChangeRow) : Bool × List ChangeRow × List Eff :=
  let success := db.slackOk change.id
  let logA := [Eff.notifyAttempt tracked_asin.asin change.id]
  if success then
    let ok := db.markOk change.id
    let store1 := if ok then
        store.map (fun r => if r.id = change.id then { r with notification_sent := true } else r)
      else store
    (true, store1, logA ++ [Eff.markNotified change.id ok])
  else (false, store, logA)

/-- The notification loop of process_batch: one dispatcher call per change,
counting the successful deliveries. -/
def notifyChanges (db : Db) (tracked_asin : TrackedAsin) :
    List ChangeRec → List ChangeRow → Nat × List ChangeRow × List Eff
  | [], store => (0, store, [])
  | c :: rest, store =>
    let step := send_change_notification db tracked_asin c store
    let tail := notifyChanges db tracked_asin rest step.2.1
    ((if step.1 then 1 else 0) + tail.1, tail.2.1, step.2.2 ++ tail.2.2)

/-- The product_lookup dict of process_batch: a dict comprehension keyed by
asin, so for duplicate asins the last product wins. -/
def lookupProduct (products : List KeepaProductData) (asin : String) : Option KeepaProductData :=
  products.foldl (fun acc p => if p.asin == asin then some p else acc) none

/-- Aggregate state of the per-item loop of process_batch. -/
structure LoopOut where
  successful_checks : Nat
  failed_checks : Nat
  changes_detected : Nat
  notifications_sent : Nat
  store : List ChangeRow
  log : List Eff
  deriving DecidableEq, Repr

/-- The per-item loop of process_batch: a missing product counts as failed;
an item whose processing raises counts as failed and writes an error-log
record; otherwise the item counts as successful after its notifications. -/
def processItems (db : Db) (products : List KeepaProductData) :
    List TrackedAsin → List ChangeRow → LoopOut
  | [], store => ⟨0, 0, 0, 0, store, []⟩
  | ta :: rest, store =>
    match lookupProduct products ta.asin with
    | none =>
      let out := processItems db products rest store
      ⟨out.successful_checks, out.failed_checks + 1, out.changes_detected,
       out.notifications_sent, out.store, out.log⟩
    | some product =>
      match process_single_asin db ta product store with
      | (.ok changes, store1, log1) =>
        -- the source guards the notification loop with `if changes:`, which
        -- is observationally the same as running the loop on the empty list
        let n := notifyChanges db ta changes store1
        let out := processItems db products rest n.2.1
        ⟨out.successful_checks + 1, out.failed_checks,
         out.changes_detected + changes.length,
         out.notifications_sent + n.1, out.store, log1 ++ n.2.2 ++ out.log⟩
      | (.error _, store1, log1) =>
        let out := processItems db products rest store1
        ⟨out.successful_checks, out.failed_checks + 1, out.changes_detected,
         out.notifications_sent, out.store,
         log1 ++ [Eff.logErrorRecord ta.asin] ++ out.log⟩

/-- BatchProcessingResult (src/models/schemas.py) restricted to the fields
the claims touch; processing_time_seconds is not modelled and fixed to 0. -/
structure BatchProcessingResult where
  asins_processed : Nat
  processing_time_seconds : Nat
  successful_checks : Nat
  failed_checks : Nat
  changes_detected : Nat
  notifications_sent : Nat
  estimated_cost_cents : Nat
  deriving DecidableEq, Repr

/-- Oracle for KeepaService.get_products_batch: the one provider call of a
batch either returns a product list or raises. -/
structure KeepaOracle where
  fetch : List String → Except String (List KeepaProductData)

/-- AsinTracker.process_batch (src/services/asin_tracker.py).  Note that the
provider fetch happens unconditionally, before any emptiness consideration;
a fetch exception propagates out of process_batch. -/
def process_batch (db : Db) (keepa : KeepaOracle) (tracked_asins : List TrackedAsin)
    (store : List ChangeRow) :
    Except String BatchProcessingResult × List ChangeRow × List Eff :=
  let asins := tracked_asins.map (fun ta => ta.asin)
  match keepa.fetch asins with
  | .error e => (.error e, store, [Eff.providerFetch asins])
  | .ok products =>
    let out := processItems db products tracked_asins store
    (.ok { asins_processed := tracked_asins.length
           processing_time_seconds := 0
           successful_checks := out.successful_checks
           failed_checks := out.failed_checks
           changes_detected := out.changes_detected
           notifications_sent := out.notifications_sent
           estimated_cost_cents := estimate_cost asins.length },
     out.store,
     [Eff.providerFetch asins] ++ out.log ++ [Eff.logApiUsage])

/-- SchedulerService timer state (src/services/scheduler.py); timestamps are
abstract naturals. -/
structure SchedulerState where
  is_running : Bool
  last_batch_run : Option Nat
  next_batch_run : Option Nat
  deriving DecidableEq, Repr

/-- The dict trigger_manual_batch returns to its caller. -/
structure ManualBatchResponse where
  success : Bool
  message : Option String
  asins_processed : Option Nat
  changes_detected : Option Nat
  notifications_sent : Option Nat
  errorMessage : Option String
  deriving DecidableEq, Repr

/-- SchedulerService.trigger_manual_batch (src/services/scheduler.py): runs
get_asins_to_check (its result is the asins_to_check argument; that call
never raises, it soft-fails to an empty list) and process_batch outside the
timer; every exception is converted to a success=false dict.  No assignment
to last_batch_run or next_batch_run occurs anywhere in the function body, so
the scheduler state is threaded through unchanged. -/
def trigger_manual_batch (st : SchedulerState) (db : Db) (keepa : KeepaOracle)
    (asins_to_check : List TrackedAsin) (store : List ChangeRow) :
    ManualBatchResponse × SchedulerState × List ChangeRow × List Eff :=
  if asins_to_check.isEmpty then
    ({ success := true, message := some "No ASINs need checking",
       asins_processed := some 0, changes_detected := none,
       notifications_sent := none, errorMessage := none }, st, store, [])
  else
    match process_batch db keepa asins_to_check store with
    | (.ok r, store1, log1) =>
      ({ success := true, message := none,
         asins_processed := some r.asins_processed,
         changes_detected := some r.changes_detected,
         notifications_sent := some r.notifications_sent,
         errorMessage := none }, st, store1, log1)
    | (.error e, store1, log1) =>
      ({ success := false, message := none, asins_processed := none,
         changes_detected := none, notifications_sent := none,
         errorMessage := some e }, st, store1, log1)

/-- The notification attempts recorded in a log, as (asin, change id) pairs
in order. -/
def attemptsFor (log : List Eff) : List (String × String) :=
  log.filterMap (fun e =>
    match e with
    | .notifyAttempt a i => some (a, i)
    | _ => none)

/-- Every row of the change table carrying this id is still unsent. -/
abbrev unsentAt (store : List ChangeRow) (i : String) : Prop :=
  ∀ r ∈ store, r.id = i → r.notification_sent = false

/-- Stepping through the dispatch loop: at the moment each change is handed
to the dispatcher, its stored notification_sent flag is still false. -/
def attemptsOnlyUnsent (db : Db) (ta : TrackedAsin) :
    List ChangeRec → List ChangeRow → Prop
  | [], _ => True
  | c :: rest, store =>
    unsentAt store c.id ∧
    attemptsOnlyUnsent db ta rest (send_change_notification db ta c store).2.1

/-- Number of provider batch calls recorded in a log. -/
def providerCalls (log : List Eff) : Nat :=
  (log.filter (fun e =>
    match e with
    | .providerFetch _ => true
    | _ => false)).length

/-- A persistence oracle on which every optional read is empty, every change
insert fails and every write succeeds; concrete instances below adjust the
fields they exercise. -/
def dbBase : Db :=
  { getState := fun _ => none
    changeId := fun _ _ _ => none
    upsertOk := fun _ => true
    historyOk := fun _ => true
    lastCheckedOk := fun _ => true
    slackOk := fun _ => false
    markOk := fun _ => false }

/-- A stored badge for category 9 used by the C2 scenario. -/
def badgeNine : BestSellerBadge :=
  { category_id := "9", category_name := "Books", rank := 1, is_bestseller := true }

/-- C2 scenario oracle: prior state exists with one badge, and every core
persistence write fails (upsert false, history false, change insert none). -/
def dbC2 : Db :=
  { dbBase with
    getState := fun _ => some { bestseller_badges := [.valid badgeNine] }
    upsertOk := fun _ => false
    historyOk := fun _ => false }

/-- C2 scenario item. -/
def taC2 : TrackedAsin := { asin := "B000000002", product_title := none }

/-- C2 scenario product: category 9 now at rank 5, so the stored badge is
lost and a change insert (which fails) is attempted. -/
def productC2 : KeepaProductData :=
  { asin := "B000000002", title := some "Sample"
    sales_ranks := [("9", .rlist [.sInt 0, .sInt 5])]
    category_tree := [] }

/-- C3 witness product: category 123 at rank 1 (named in the tree),
category 456 at rank 5. -/
def productC3 : KeepaProductData :=
  { asin := "B000000003", title := none
    sales_ranks := [("123", .rlist [.sInt 0, .sInt 1]), ("456", .rlist [.sInt 0, .sInt 5])]
    category_tree := [.centry 123 "Widgets"] }

/-- C4 oracle: base persistence oracle. -/
def dbC4 : Db := dbBase

/-- C4 provider oracle: the batch call succeeds with no products. -/
def keepaC4 : KeepaOracle := { fetch := fun _ => .ok [] }

/-- C5 oracle: no prior state stored as an empty badge list, and every
change insert succeeds with a derived id. -/
def dbC5 : Db :=
  { dbBase with
    getState := fun _ => some { bestseller_badges := [] }
    changeId := fun _ _ cid => some ("ch-" ++ cid) }

/-- C5 scenario item. -/
def taC5 : TrackedAsin := { asin := "B000000005", product_title := none }

/-- C5 scenario product: category 123 at rank 1. -/
def productC5 : KeepaProductData :=
  { asin := "B000000005", title := none
    sales_ranks := [("123", .rlist [.sInt 0, .sInt 1])]
    category_tree := [.centry 123 "Widgets"] }

/-- C6 oracle: no prior CurrentState row exists. -/
def dbC6 : Db := dbBase

/-- C6 scenario item. -/
def taC6 : TrackedAsin := { asin := "B000000006", product_title := none }

/-- C6 scenario product: a rank-1 category, so badges are extracted even
though no prior state exists. -/
def productC6 : KeepaProductData :=
  { asin := "B000000006", title := none
    sales_ranks := [("7", .rlist [.sInt 0, .sInt 1])]
    category_tree := [] }

/-- C8 oracle: deliveries and patches succeed. -/
def dbC8 : Db :=
  { dbBase with slackOk := fun _ => true, markOk := fun _ => true }

/-- C8 scenario item. -/
def taC8 : TrackedAsin := { asin := "B000000008", product_title := none }

/-- C8 scenario changes: two freshly inserted change events. -/
def changesC8 : List ChangeRec :=
  [{ id := "id-a", change_type := "gained", category := "Cat A", category_id := "11",
     previous_rank := none, new_rank := some (.sInt 1) },
   { id := "id-b", change_type := "lost", category := "Cat B", category_id := "22",
     previous_rank := some 1, new_rank := none }]

/-- C8 scenario change table: both rows unsent, as just inserted. -/
def storeC8 : List ChangeRow :=
  [{ id := "id-a", notification_sent := false },
   { id := "id-b", notification_sent := false }]

/-- C10 oracle: empty prior state, successful inserts, deliveries and
patches. -/
def dbC10 : Db :=
  { dbBase with
    getState := fun _ => some { bestseller_badges := [] }
    changeId := fun _ _ cid => some ("c-" ++ cid)
    slackOk := fun _ => true
    markOk := fun _ => true }

/-- C10 scenario product for the item the provider returns. -/
def productC10 : KeepaProductData :=
  { asin := "B000000010", title := none
    sales_ranks := [("5", .rlist [.sInt 0, .sInt 1])]
    category_tree := [] }

/-- C10 provider oracle: returns data for one of the two tracked items. -/
def keepaC10 : KeepaOracle := { fetch := fun _ => .ok [productC10] }

/-- C10 tracked items: one with provider data, one without. -/
def trackedC10 : List TrackedAsin :=
  [{ asin := "B000000010", product_title := none },
   { asin := "B000000011", product_title := none }]

theorem mem_gained_iff (previous current : List BestSellerBadge) (c : String) :
    c ∈ badgeIds (compare_badges previous current).gained ↔
      c ∈ badgeIds current ∧ c ∉ badgeIds previous := by
  simp only [compare_badges, badgeIds, List.mem_map, List.mem_filter, decide_eq_true_eq]
  constructor
  · rintro ⟨b, ⟨hb, _, hn⟩, rfl⟩
    exact ⟨⟨b, hb, rfl⟩, hn⟩
  · rintro ⟨⟨b, hb, rfl⟩, hn⟩
    exact ⟨b, ⟨hb, ⟨b, hb, rfl⟩, hn⟩, rfl⟩

theorem mem_lost_iff (previous current : List BestSellerBadge) (c : String) :
    c ∈ badgeIds (compare_badges previous current).lost ↔
      c ∈ badgeIds previous ∧ c ∉ badgeIds current := by
  simp only [compare_badges, badgeIds, List.mem_map, List.mem_filter, decide_eq_true_eq]
  constructor
  · rintro ⟨b, ⟨hb, _, hn⟩, rfl⟩
    exact ⟨⟨b, hb, rfl⟩, hn⟩
  · rintro ⟨⟨b, hb, rfl⟩, hn⟩
    exact ⟨b, ⟨hb, ⟨b, hb, rfl⟩, hn⟩, rfl⟩

theorem mem_unchanged_iff (previous current : List BestSellerBadge) (c : String) :
    c ∈ badgeIds (compare_badges previous current).unchanged ↔
      c ∈ badgeIds previous ∧ c ∈ badgeIds current := by
  simp only [compare_badges, badgeIds, List.mem_map, List.mem_filter, decide_eq_true_eq]
  constructor
  · rintro ⟨b, ⟨hb, hp, _⟩, rfl⟩
    exact ⟨hp, ⟨b, hb, rfl⟩⟩
  · rintro ⟨hp, ⟨b, hb, rfl⟩⟩
    exact ⟨b, ⟨hb, hp, ⟨b, hb, rfl⟩⟩, rfl⟩

/-- C1: the gained / lost / unchanged partitions of compare_badges have
category-id sets equal to current minus previous, previous minus current and
previous intersect current; their union is the union of both id sets and
they are pairwise disjoint. -/
theorem compare_badges_partition (previous current : List BestSellerBadge) (c : String) :
    (c ∈ badgeIds (compare_badges previous current).gained ↔
      c ∈ badgeIds current ∧ c ∉ badgeIds previous) ∧
    (c ∈ badgeIds (compare_badges previous current).lost ↔
      c ∈ badgeIds previous ∧ c ∉ badgeIds current) ∧
    (c ∈ badgeIds (compare_badges previous current).unchanged ↔
      c ∈ badgeIds previous ∧ c ∈ badgeIds current) ∧
    ((c ∈ badgeIds (compare_badges previous current).gained ∨
      c ∈ badgeIds (compare_badges previous current).lost ∨
      c ∈ badgeIds (compare_badges previous current).unchanged) ↔
      (c ∈ badgeIds previous ∨ c ∈ badgeIds current)) ∧
    ¬ (c ∈ badgeIds (compare_badges previous current).gained ∧
       c ∈ badgeIds (compare_badges previous current).lost) ∧
    ¬ (c ∈ badgeIds (compare_badges previous current).gained ∧
       c ∈ badgeIds (compare_badges previous current).unchanged) ∧
    ¬ (c ∈ badgeIds (compare_badges previous current).lost ∧
       c ∈ badgeIds (compare_badges previous current).unchanged) := by
  have hg := mem_gained_iff previous current c
  have hl := mem_lost_iff previous current c
  have hu := mem_unchanged_iff previous current c
  rw [hg, hl, hu]
  tauto

theorem mem_extractLoop (lookup : List (String × String)) (l : List (String × RankData))
    (b : BestSellerBadge) :
    b ∈ extractLoop lookup l ↔
      ∃ cid rd, (cid, rd) ∈ l ∧ rankHitsOne rd = true ∧ b = mkBadge lookup cid := by
  induction l with
  | nil => simp [extractLoop]
  | cons e rest ih =>
    obtain ⟨cid, rd⟩ := e
    by_cases h : rankHitsOne rd <;> simp [extractLoop, h, ih] <;> aesop

theorem ids_extractLoop (lookup : List (String × String)) (l : List (String × RankData)) :
    badgeIds (extractLoop lookup l) = (l.filter (fun e => rankHitsOne e.2)).map Prod.fst := by
  induction l with
  | nil => simp [extractLoop, badgeIds]
  | cons e rest ih =>
    obtain ⟨cid, rd⟩ := e
    by_cases h : rankHitsOne rd <;>
      simp only [extractLoop, h, if_true, if_false, List.filter_cons] <;>
      simp [badgeIds, mkBadge, h] at ih ⊢ <;> exact ih

/-- C3: a badge is extracted exactly for the categories whose rank entry is
a 2+-element list with second element the integer 1, with the name resolved
through the category tree lookup (with the "Category id" default baked into
mkBadge); with unique rank-mapping keys there is exactly one badge per such
category; an empty rank mapping yields no badges.  Malformed entries are
covered by the iff: they fail rankHitsOne and produce nothing, and the
function is total, so nothing is raised. -/
theorem extract_badges_spec (p : KeepaProductData)
    (h : (p.sales_ranks.map Prod.fst).Nodup) :
    (∀ b, b ∈ extract_bestseller_badges p ↔
      ∃ rd, (b.category_id, rd) ∈ p.sales_ranks ∧ rankHitsOne rd = true ∧
        b = mkBadge (buildLookup p.category_tree) b.category_id) ∧
    (badgeIds (extract_bestseller_badges p)).Nodup ∧
    (p.sales_ranks.isEmpty = true → extract_bestseller_badges p = []) := by
  refine ⟨?_, ?_, ?_⟩
  · intro b
    unfold extract_bestseller_badges
    by_cases he : p.sales_ranks.isEmpty
    · rw [List.isEmpty_iff] at he
      simp [he]
    · simp only [he, if_false, Bool.false_eq_true]
      rw [mem_extractLoop]
      constructor
      · rintro ⟨cid, rd, hm, hr, rfl⟩
        exact ⟨rd, hm, hr, rfl⟩
      · rintro ⟨rd, hm, hr, hb⟩
        exact ⟨b.category_id, rd, hm, hr, hb⟩
  · unfold extract_bestseller_badges
    by_cases he : p.sales_ranks.isEmpty
    · simp [he, badgeIds]
    · simp only [he, if_false, Bool.false_eq_true]
      rw [ids_extractLoop]
      exact h.sublist (List.Sublist.map Prod.fst (List.filter_sublist _))
  · intro he
    simp [extract_bestseller_badges, he]

/-- C3 witness at a concrete product with one rank-1 and one rank-5
category. -/
theorem extract_badges_spec_witness :
    ((productC3.sales_ranks.map Prod.fst).Nodup) ∧
    ((∀ b, b ∈ extract_bestseller_badges productC3 ↔
      ∃ rd, (b.category_id, rd) ∈ productC3.sales_ranks ∧ rankHitsOne rd = true ∧
        b = mkBadge (buildLookup productC3.category_tree) b.category_id) ∧
    (badgeIds (extract_bestseller_badges productC3)).Nodup ∧
    (productC3.sales_ranks.isEmpty = true → extract_bestseller_badges productC3 = [])) :=
  ⟨by decide, extract_badges_spec productC3 (by decide)⟩

/-- C7: the code computes the cost through binary64 floating point; at 290
tokens it returns 28 cents while the documented formula
max(1, floor(t / 1000 * 100)) gives 29; the three example values of the
claim do hold. -/
theorem estimate_cost_float_vs_formula :
    estimate_cost 500 = 50 ∧ estimate_cost 1 = 1 ∧ estimate_cost 2000 = 200 ∧
    estimate_cost 290 = 28 ∧ claimed_cost 290 = 29 := by decide

/-- C9: trigger_manual_batch returns the scheduler state unchanged on every
path (no work, success, and propagated batch exception), so last_batch_run
and next_batch_run are preserved. -/
theorem trigger_manual_batch_preserves_timer (st : SchedulerState) (db : Db)
    (keepa : KeepaOracle) (asins_to_check : List TrackedAsin) (store : List ChangeRow) :
    (trigger_manual_batch st db keepa asins_to_check store).2.1 = st ∧
    (trigger_manual_batch st db keepa asins_to_check store).2.1.last_batch_run
      = st.last_batch_run ∧
    (trigger_manual_batch st db keepa asins_to_check store).2.1.next_batch_run
      = st.next_batch_run := by
  unfold trigger_manual_batch
  split
  · exact ⟨rfl, rfl, rfl⟩
  · split <;> exact ⟨rfl, rfl, rfl⟩

theorem processGained_eq (db : Db) (asin : String) (bs : List BestSellerBadge)
    (store : List ChangeRow) :
    processGained db asin bs store =
      (bs.filterMap (fun b =>
        match db.changeId asin "gained" b.category_id with
        | some i =>
          if i = "" then none
          else some { id := i, change_type := "gained", category := b.category_name,
                      category_id := b.category_id, previous_rank := none,
                      new_rank := some (.sInt b.rank) }
        | none => none),
       store ++ bs.filterMap (fun b =>
        (db.changeId asin "gained" b.category_id).map
          (fun i => ({ id := i, notification_sent := false } : ChangeRow))),
       bs.map (fun b =>
        Eff.insertChange asin "gained" b.category_id (db.changeId asin "gained" b.category_id))) := by
  induction bs generalizing store with
  | nil => simp [processGained]
  | cons b rest ih =>
    simp only [processGained, create_change_record, List.filterMap_cons, List.map_cons]
    cases db.changeId asin "gained" b.category_id with
    | none => simp [ih]
    | some i =>
      by_cases hi : i = "" <;> simp [hi, ih, List.append_assoc]

theorem processLost_eq (db : Db) (asin : String) (sales_ranks : List (String × RankData))
    (bs : List BestSellerBadge) (store : List ChangeRow) :
    processLost db asin sales_ranks bs store =
      (bs.filterMap (fun b =>
        match db.changeId asin "lost" b.category_id with
        | some i =>
          if i = "" then none
          else some { id := i, change_type := "lost", category := b.category_name,
                      category_id := b.category_id, previous_rank := some 1,
                      new_rank := lookupRank sales_ranks b.category_id }
        | none => none),
       store ++ bs.filterMap (fun b =>
        (db.changeId asin "lost" b.category_id).map
          (fun i => ({ id := i, notification_sent := false } : ChangeRow))),
       bs.map (fun b =>
        Eff.insertChange asin "lost" b.category_id (db.changeId asin "lost" b.category_id))) := by
  induction bs generalizing store with
  | nil => simp [processLost]
  | cons b rest ih =>
    simp only [processLost, create_change_record, List.filterMap_cons, List.map_cons]
    cases db.changeId asin "lost" b.category_id with
    | none => simp [ih]
    | some i =>
      by_cases hi : i = "" <;> simp [hi, ih, List.append_assoc]

/-- C6: with no prior CurrentState row the item processor returns no change
events whatever badges were extracted, leaves the change table untouched,
and its call sequence is exactly state read, CurrentState write, history
insert, last-checked update (in particular, no change insert). -/
theorem no_prior_state_no_changes (db : Db) (ta : TrackedAsin) (p : KeepaProductData)
    (store : List ChangeRow) (h : db.getState ta.asin = none) :
    (process_single_asin db ta p store).1 = .ok [] ∧
    (process_single_asin db ta p store).2.1 = store ∧
    (process_single_asin db ta p store).2.2 =
      [Eff.getState ta.asin,
       Eff.upsertState ta.asin (db.upsertOk ta.asin),
       Eff.insertHistory ta.asin (db.historyOk ta.asin),
       Eff.updateLastChecked ta.asin (db.lastCheckedOk ta.asin)] := by
  unfold process_single_asin
  dsimp only
  simp [h]

/-- C6 witness: a product from which a badge is extracted, processed for an
item with no prior state. -/
theorem no_prior_state_no_changes_witness :
    dbC6.getState taC6.asin = none ∧
    extract_bestseller_badges productC6 ≠ [] ∧
    ((process_single_asin dbC6 taC6 productC6 []).1 = .ok [] ∧
     (process_single_asin dbC6 taC6 productC6 []).2.1 = [] ∧
     (process_single_asin dbC6 taC6 productC6 []).2.2 =
       [Eff.getState taC6.asin,
        Eff.upsertState taC6.asin (dbC6.upsertOk taC6.asin),
        Eff.insertHistory taC6.asin (dbC6.historyOk taC6.asin),
        Eff.updateLastChecked taC6.asin (dbC6.lastCheckedOk taC6.asin)]) :=
  ⟨rfl, by decide, no_prior_state_no_changes dbC6 taC6 productC6 [] rfl⟩

/-- C5: every change event returned by the item processor was persisted
before return: its insert yielded exactly the id the event carries (a
non-empty one), and a row with that id exists, unsent, in the change table
the invocation hands back. -/
theorem returned_changes_persisted (db : Db) (ta : TrackedAsin) (p : KeepaProductData)
    (store : List ChangeRow) :
    ∀ changes, (process_single_asin db ta p store).1 = .ok changes →
    ∀ c ∈ changes,
      db.changeId ta.asin c.change_type c.category_id = some c.id ∧ c.id ≠ "" ∧
      ({ id := c.id, notification_sent := false } : ChangeRow)
        ∈ (process_single_asin db ta p store).2.1 := by
  intro changes hok c hc
  unfold process_single_asin at hok ⊢
  dsimp only at hok ⊢
  cases hg : db.getState ta.asin with
  | none =>
    simp only [hg, Except.ok.injEq] at hok
    subst hok
    simp at hc
  | some cs =>
    simp only [hg] at hok ⊢
    cases hp : parseStoredBadges cs.bestseller_badges with
    | error e => simp only [hp] at hok; exact Except.noConfusion hok
    | ok previous_badges =>
      simp only [hp, Except.ok.injEq] at hok ⊢
      subst hok
      simp only [processGained_eq, processLost_eq] at hc ⊢
      rw [List.mem_append] at hc
      rcases hc with hc | hc
      · rw [List.mem_filterMap] at hc
        obtain ⟨b, hb, hcb⟩ := hc
        cases hcid : db.changeId ta.asin "gained" b.category_id with
        | none => simp only [hcid] at hcb; exact Option.noConfusion hcb
        | some i =>
          simp only [hcid] at hcb
          by_cases hi : i = ""
          · rw [if_pos hi] at hcb; exact Option.noConfusion hcb
          · rw [if_neg hi] at hcb
            obtain rfl := Option.some.inj hcb
            refine ⟨hcid, hi, ?_⟩
            refine List.mem_append_left _ (List.mem_append_right _ ?_)
            rw [List.mem_filterMap]
            exact ⟨b, hb, by rw [hcid]; rfl⟩
      · rw [List.mem_filterMap] at hc
        obtain ⟨b, hb, hcb⟩ := hc
        cases hcid : db.changeId ta.asin "lost" b.category_id with
        | none => simp only [hcid] at hcb; exact Option.noConfusion hcb
        | some i =>
          simp only [hcid] at hcb
          by_cases hi : i = ""
          · rw [if_pos hi] at hcb; exact Option.noConfusion hcb
          · rw [if_neg hi] at hcb
            obtain rfl := Option.some.inj hcb
            refine ⟨hcid, hi, ?_⟩
            refine List.mem_append_right _ ?_
            rw [List.mem_filterMap]
            exact ⟨b, hb, by rw [hcid]; rfl⟩

/-- C5 witness: a gained badge whose insert succeeds with id ch-123. -/
theorem returned_changes_persisted_witness :
    dbC5.changeId taC5.asin "gained" "123" = some "ch-123" ∧
    ("ch-123" : String) ≠ "" ∧
    ({ id := "ch-123", notification_sent := false } : ChangeRow)
      ∈ (process_single_asin dbC5 taC5 productC5 []).2.1 :=
  returned_changes_persisted dbC5 taC5 productC5 []
    [{ id := "ch-123", change_type := "gained", category := "Widgets", category_id := "123",
       previous_rank := none, new_rank := some (.sInt 1) }] rfl
    { id := "ch-123", change_type := "gained", category := "Widgets", category_id := "123",
      previous_rank := none, new_rank := some (.sInt 1) } (by decide)

/-- C2 counterexample: on an invocation in which every core persistence
write fails (the CurrentState upsert and history insert report false, the
change insert reports none, and update_asin_current_state maps an HTTP 500
to false instead of raising), the item processor still returns normally
(ok, counted successful by the orchestrator) and still issues the
last_checked_at update, contradicting the claim that such a failure raises
and leaves last_checked_at un-updated. -/
theorem write_failures_do_not_raise :
    update_asin_current_state (.status 500) (.status 500) = false ∧
    dbC2.upsertOk taC2.asin = false ∧
    dbC2.historyOk taC2.asin = false ∧
    dbC2.changeId taC2.asin "lost" "9" = none ∧
    (process_single_asin dbC2 taC2 productC2 []).1 = .ok [] ∧
    Eff.updateLastChecked taC2.asin true ∈ (process_single_asin dbC2 taC2 productC2 []).2.2 := by
  refine ⟨rfl, rfl, rfl, rfl, rfl, ?_⟩
  decide

/-- C2 amended: persistence write failures inside the item processor are
soft: the only way the invocation raises is a stored-badge validation
failure; whenever it returns normally it has issued the CurrentState write,
the history insert and the last_checked_at update, whatever their results
were (failed writes are ignored, the item still counts as successful). -/
theorem process_single_asin_failure_semantics (db : Db) (ta : TrackedAsin)
    (p : KeepaProductData) (store : List ChangeRow) :
    (∀ e, (process_single_asin db ta p store).1 = .error e →
      ∃ cs, db.getState ta.asin = some cs ∧
        parseStoredBadges cs.bestseller_badges = .error e) ∧
    (∀ changes, (process_single_asin db ta p store).1 = .ok changes →
      Eff.upsertState ta.asin (db.upsertOk ta.asin) ∈ (process_single_asin db ta p store).2.2 ∧
      Eff.insertHistory ta.asin (db.historyOk ta.asin) ∈ (process_single_asin db ta p store).2.2 ∧
      Eff.updateLastChecked ta.asin (db.lastCheckedOk ta.asin)
        ∈ (process_single_asin db ta p store).2.2) := by
  unfold process_single_asin
  dsimp only
  cases hg : db.getState ta.asin with
  | none =>
    constructor
    · intro e he
      exact Except.noConfusion he
    · intro changes hch
      refine ⟨?_, ?_, ?_⟩ <;> simp
  | some cs =>
    cases hp : parseStoredBadges cs.bestseller_badges with
    | error e0 =>
      constructor
      · intro e he
        simp only [hp, Except.error.injEq] at he
        subst he
        exact ⟨cs, rfl, hp⟩
      · intro changes hch
        simp only [hp] at hch
        exact Except.noConfusion hch
    | ok previous_badges =>
      constructor
      · intro e he
        simp only [hp] at he
        exact Except.noConfusion he
      · intro changes hch
        simp only [hp]
        refine ⟨?_, ?_, ?_⟩ <;> simp

/-- C2 amended witness: the all-writes-fail oracle still reaches the three
trailing writes. -/
theorem process_single_asin_failure_semantics_witness :
    Eff.upsertState taC2.asin (dbC2.upsertOk taC2.asin)
      ∈ (process_single_asin dbC2 taC2 productC2 []).2.2 ∧
    Eff.insertHistory taC2.asin (dbC2.historyOk taC2.asin)
      ∈ (process_single_asin dbC2 taC2 productC2 []).2.2 ∧
    Eff.updateLastChecked taC2.asin (dbC2.lastCheckedOk taC2.asin)
      ∈ (process_single_asin dbC2 taC2 productC2 []).2.2 :=
  (process_single_asin_failure_semantics dbC2 taC2 productC2 []).2 [] rfl

theorem attemptsFor_append (l1 l2 : List Eff) :
    attemptsFor (l1 ++ l2) = attemptsFor l1 ++ attemptsFor l2 := by
  simp [attemptsFor]

theorem send_store_eq (db : Db) (ta : TrackedAsin) (c : ChangeRec) (store : List ChangeRow) :
    (send_change_notification db ta c store).2.1 =
      if db.slackOk c.id && db.markOk c.id then
        store.map (fun r => if r.id = c.id then { r with notification_sent := true } else r)
      else store := by
  unfold send_change_notification
  dsimp only
  cases hs : db.slackOk c.id <;> cases hm : db.markOk c.id <;> simp [hs, hm]

theorem send_log_eq (db : Db) (ta : TrackedAsin) (c : ChangeRec) (store : List ChangeRow) :
    (send_change_notification db ta c store).2.2 =
      if db.slackOk c.id then
        [Eff.notifyAttempt ta.asin c.id, Eff.markNotified c.id (db.markOk c.id)]
      else [Eff.notifyAttempt ta.asin c.id] := by
  unfold send_change_notification
  dsimp only
  cases hs : db.slackOk c.id <;> simp [hs]

theorem send_attempts (db : Db) (ta : TrackedAsin) (c : ChangeRec) (store : List ChangeRow) :
    attemptsFor (send_change_notification db ta c store).2.2 = [(ta.asin, c.id)] := by
  rw [send_log_eq]
  cases hs : db.slackOk c.id <;> simp [hs, attemptsFor]

theorem send_preserves_unsent (db : Db) (ta : TrackedAsin) (c : ChangeRec)
    (store : List ChangeRow) (j : String) (hne : j ≠ c.id) (h : unsentAt store j) :
    unsentAt (send_change_notification db ta c store).2.1 j := by
  intro r hr hrid
  rw [send_store_eq] at hr
  by_cases hb : (db.slackOk c.id && db.markOk c.id) = true
  · rw [if_pos hb] at hr
    rw [List.mem_map] at hr
    obtain ⟨r0, hr0, hrr⟩ := hr
    by_cases hid : r0.id = c.id
    · rw [if_pos hid] at hrr
      exfalso
      apply hne
      rw [← hrid, ← hrr]
      exact hid
    · rw [if_neg hid] at hrr
      subst hrr
      exact h r0 hr0 hrid
  · rw [if_neg hb] at hr
    exact h r hr hrid

theorem notifyChanges_cons (db : Db) (ta : TrackedAsin) (c : ChangeRec)
    (rest : List ChangeRec) (store : List ChangeRow) :
    notifyChanges db ta (c :: rest) store =
      ((if (send_change_notification db ta c store).1 then 1 else 0) +
        (notifyChanges db ta rest (send_change_notification db ta c store).2.1).1,
       (notifyChanges db ta rest (send_change_notification db ta c store).2.1).2.1,
       (send_change_notification db ta c store).2.2 ++
         (notifyChanges db ta rest (send_change_notification db ta c store).2.1).2.2) := rfl

/-- C8: within one item-processor invocation the dispatch loop makes exactly
one notification attempt per change event (so, with distinct persisted ids,
at most one attempt per event), and every event it dispatches still has its
stored notification_sent flag false at the moment of the attempt (freshly
inserted events start unsent; once one is marked sent it is never dispatched
again in the invocation). -/
theorem dispatcher_at_most_once (db : Db) (ta : TrackedAsin) (changes : List ChangeRec)
    (store : List ChangeRow)
    (hnodup : (changes.map (fun c => c.id)).Nodup)
    (hfresh : ∀ c ∈ changes, unsentAt store c.id) :
    attemptsFor (notifyChanges db ta changes store).2.2 =
      changes.map (fun c => (ta.asin, c.id)) ∧
    attemptsOnlyUnsent db ta changes store := by
  revert store hnodup hfresh
  induction changes with
  | nil => intro store _ _; exact ⟨rfl, trivial⟩
  | cons c rest ih =>
    intro store hnodup hfresh
    rw [List.map_cons, List.nodup_cons] at hnodup
    obtain ⟨hni, hnd⟩ := hnodup
    have hpres : ∀ c2 ∈ rest, unsentAt (send_change_notification db ta c store).2.1 c2.id := by
      intro c2 hc2
      refine send_preserves_unsent db ta c store c2.id ?_
        (hfresh c2 (List.mem_cons_of_mem _ hc2))
      intro h
      exact hni (h ▸ List.mem_map_of_mem (fun x => x.id) hc2)
    obtain ⟨ih1, ih2⟩ := ih (send_change_notification db ta c store).2.1 hnd hpres
    constructor
    · rw [notifyChanges_cons]
      dsimp only
      rw [attemptsFor_append, send_attempts, ih1, List.map_cons]
      rfl
    · exact ⟨hfresh c (List.mem_cons_self _ _), ih2⟩

/-- C8 witness: two fresh change events, deliveries succeeding. -/
theorem dispatcher_at_most_once_witness :
    attemptsFor (notifyChanges dbC8 taC8 changesC8 storeC8).2.2 =
      changesC8.map (fun c => (taC8.asin, c.id)) ∧
    attemptsOnlyUnsent dbC8 taC8 changesC8 storeC8 :=
  dispatcher_at_most_once dbC8 taC8 changesC8 storeC8 (by decide) (by decide)

theorem notifyChanges_count_le (db : Db) (ta : TrackedAsin) (cs : List ChangeRec)
    (store : List ChangeRow) :
    (notifyChanges db ta cs store).1 ≤ cs.length := by
  induction cs generalizing store with
  | nil => simp [notifyChanges]
  | cons c rest ih =>
    rw [notifyChanges_cons]
    dsimp only
    have h := ih (send_change_notification db ta c store).2.1
    by_cases hs : (send_change_notification db ta c store).1 = true <;>
      simp [hs, List.length_cons] <;> omega

theorem processItems_counters (db : Db) (products : List KeepaProductData)
    (tas : List TrackedAsin) (store : List ChangeRow) :
    (processItems db products tas store).successful_checks +
      (processItems db products tas store).failed_checks = tas.length ∧
    (processItems db products tas store).notifications_sent ≤
      (processItems db products tas store).changes_detected := by
  induction tas generalizing store with
  | nil => simp [processItems]
  | cons ta rest ih =>
    unfold processItems
    dsimp only
    cases hl : lookupProduct products ta.asin with
    | none =>
      obtain ⟨ih1, ih2⟩ := ih store
      dsimp only
      simp only [List.length_cons]
      constructor <;> omega
    | some product =>
      dsimp only
      rcases hps : process_single_asin db ta product store with ⟨res, store1, log1⟩
      cases res with
      | ok changes =>
        obtain ⟨ih1, ih2⟩ := ih (notifyChanges db ta changes store1).2.1
        have hcl := notifyChanges_count_le db ta changes store1
        dsimp only
        simp only [List.length_cons]
        constructor <;> omega
      | error e =>
        obtain ⟨ih1, ih2⟩ := ih store1
        dsimp only
        simp only [List.length_cons]
        constructor <;> omega

/-- C10: whenever process_batch returns normally on N tracked items, each
item was counted in exactly one of the success / failure counters
(successful + failed = N = asins_processed) and at most one notification was
counted per detected change. -/
theorem process_batch_counter_invariant (db : Db) (keepa : KeepaOracle)
    (tracked_asins : List TrackedAsin) (store : List ChangeRow) :
    ∀ r, (process_batch db keepa tracked_asins store).1 = .ok r →
      r.successful_checks + r.failed_checks = tracked_asins.length ∧
      r.asins_processed = tracked_asins.length ∧
      r.notifications_sent ≤ r.changes_detected := by
  intro r hr
  unfold process_batch at hr
  dsimp only at hr
  cases hf : keepa.fetch (tracked_asins.map (fun ta => ta.asin)) with
  | error e =>
    simp only [hf] at hr
    exact Except.noConfusion hr
  | ok products =>
    simp only [hf, Except.ok.injEq] at hr
    subst hr
    obtain ⟨h1, h2⟩ := processItems_counters db products tracked_asins store
    exact ⟨h1, rfl, h2⟩

/-- C10 witness: two tracked items, the provider returning data for one; the
run yields one success, one failure, one change and one notification. -/
theorem process_batch_counter_invariant_witness :
    (⟨2, 0, 1, 1, 1, 1, 1⟩ : BatchProcessingResult).successful_checks +
      (⟨2, 0, 1, 1, 1, 1, 1⟩ : BatchProcessingResult).failed_checks = trackedC10.length ∧
    (⟨2, 0, 1, 1, 1, 1, 1⟩ : BatchProcessingResult).asins_processed = trackedC10.length ∧
    (⟨2, 0, 1, 1, 1, 1, 1⟩ : BatchProcessingResult).notifications_sent ≤
      (⟨2, 0, 1, 1, 1, 1, 1⟩ : BatchProcessingResult).changes_detected :=
  process_batch_counter_invariant dbC10 keepaC10 trackedC10 [] ⟨2, 0, 1, 1, 1, 1, 1⟩ rfl

/-- C4 counterexample: invoked on an empty item list, process_batch still
makes one provider batch call (with zero keys); the returned counters are
all zero, but the no-provider-call half of the claim is false. -/
theorem process_batch_empty_calls_provider :
    providerCalls (process_batch dbC4 keepaC4 [] []).2.2 = 1 ∧
    (process_batch dbC4 keepaC4 [] []).1 =
      .ok { asins_processed := 0, processing_time_seconds := 0, successful_checks := 0,
            failed_checks := 0, changes_detected := 0, notifications_sent := 0,
            estimated_cost_cents := 1 } :=
  ⟨rfl, rfl⟩

/-- C4 amended: on an empty item list process_batch makes exactly one
provider call; whenever that call returns normally, every counter of the
result is zero. -/
theorem process_batch_empty_spec (db : Db) (keepa : KeepaOracle) (store : List ChangeRow) :
    providerCalls (process_batch db keepa [] store).2.2 = 1 ∧
    (∀ r, (process_batch db keepa [] store).1 = .ok r →
      r.asins_processed = 0 ∧ r.successful_checks = 0 ∧ r.failed_checks = 0 ∧
      r.changes_detected = 0 ∧ r.notifications_sent = 0) := by
  unfold process_batch
  dsimp only
  simp only [List.map_nil]
  cases hf : keepa.fetch [] with
  | error e =>
    refine ⟨rfl, ?_⟩
    intro r hr
    exact Except.noConfusion hr
  | ok products =>
    refine ⟨rfl, ?_⟩
    intro r hr
    simp only [Except.ok.injEq] at hr
    subst hr
    exact ⟨rfl, rfl, rfl, rfl, rfl⟩

/-- C4 amended witness: the empty batch against a provider succeeding with
no products. -/
theorem process_batch_empty_spec_witness :
    providerCalls (process_batch dbC4 keepaC4 [] []).2.2 = 1 ∧
    ((⟨0, 0, 0, 0, 0, 0, 1⟩ : BatchProcessingResult).asins_processed = 0 ∧
     (⟨0, 0, 0, 0, 0, 0, 1⟩ : BatchProcessingResult).successful_checks = 0 ∧
     (⟨0, 0, 0, 0, 0, 0, 1⟩ : BatchProcessingResult).failed_checks = 0 ∧
     (⟨0, 0, 0, 0, 0, 0, 1⟩ : BatchProcessingResult).changes_detected = 0 ∧
     (⟨0, 0, 0, 0, 0, 0, 1⟩ : BatchProcessingResult).notifications_sent = 0) :=
  ⟨(process_batch_empty_spec dbC4 keepaC4 []).1,
   (process_batch_empty_spec dbC4 keepaC4 []).2 ⟨0, 0, 0, 0, 0, 0, 1⟩ rfl⟩

end BST
